import Mathlib

/-!
Verification development for the content-stream watermark excision engine of
`scripts/remove_watermark.py`.

The Python code operates on text (sequences of Unicode code points) obtained by
decoding raw stream bytes.  We model Python `str` values as `List Nat` of code
points and Python `bytes` values as `List Nat` of bytes.  Pure functions of the
script (`extract_all_text_from_stream`, the `re.sub` removal passes inside
`remove_watermark_pymupdf` and `process_form_xobject`, the predicate helpers
`should_remove_text_object`, `should_remove_inline`, `should_remove_tj_array`)
are translated directly; the specific regular expressions used by the script
are compiled by hand into scanning functions with the exact matching semantics
of `re` on those patterns (leftmost, non-overlapping, with the limited
backtracking those patterns admit).  Library calls (`str.lower`,
`bytes.decode`, `str.encode`) are modelled at the fidelity the streams use:
ASCII plus Latin-1 simple case mapping for `lower`, byte-exact UTF-8 with the
`ignore` error handler for `decode`, and Latin-1 with `ignore` for `encode`.
-/

/-- Code points of a Lean string literal, for writing concrete buffers. -/
def S (s : String) : List Nat := s.data.map Char.toNat

/-- Python `str.lower` restricted to the ASCII and Latin-1 letters that can
appear in the modelled streams. -/
def lowerCp (c : Nat) : Nat :=
  if 65 ≤ c ∧ c ≤ 90 then c + 32
  else if 192 ≤ c ∧ c ≤ 222 ∧ c ≠ 215 then c + 32
  else c

/-- Lowercasing of a whole text, as `text.lower()` in the script. -/
def pyLower (s : List Nat) : List Nat := s.map lowerCp

/-- Python substring test `w in t`. -/
def pyIn (w t : List Nat) : Bool := decide (w <:+: t)

/-- Python `any(w in t for w in needles)`: some needle is a substring. -/
def anyNeedle (needles : List (List Nat)) (t : List Nat) : Bool :=
  needles.any (fun w => pyIn w t)

/-- ASCII whitespace recognized by `\s` in the regexes of the script. -/
def isPySpace (c : Nat) : Bool :=
  c == 32 || c == 9 || c == 10 || c == 13 || c == 11 || c == 12

/-- ASCII word characters, the `\w` class used by the `\b` boundaries. -/
def isWordChar (c : Nat) : Bool :=
  decide ((48 ≤ c ∧ c ≤ 57) ∨ (65 ≤ c ∧ c ≤ 90) ∨ (97 ≤ c ∧ c ≤ 122) ∨ c = 95)

/-- Hex digits accepted by the `<([0-9A-Fa-f]+)>` pattern. -/
def isHexDigitCp (c : Nat) : Bool :=
  decide ((48 ≤ c ∧ c ≤ 57) ∨ (65 ≤ c ∧ c ≤ 70) ∨ (97 ≤ c ∧ c ≤ 102))

/-- Membership of an escape character in the Python literal `'()nrtbf'`
(line `if esc_char in '()nrtbf'` of `extract_all_text_from_stream`). -/
def escOK (e : Nat) : Bool :=
  e == 40 || e == 41 || e == 110 || e == 114 || e == 116 || e == 98 || e == 102

/-- Python `bytes.decode("latin-1")`: every byte becomes the code point of the
same value.  Used by the form-object gate at line 387 of the script. -/
def decodeLatin1 (bs : List Nat) : List Nat := bs

/-- Continuation byte test for UTF-8. -/
def isUtf8Cont (b : Nat) : Bool := decide (128 ≤ b ∧ b ≤ 191)

/-- Admissible second byte after a 3- or 4-byte UTF-8 lead byte. -/
def utf8Cont2Ok (b1 b2 : Nat) : Bool :=
  if b1 = 224 then decide (160 ≤ b2 ∧ b2 ≤ 191)
  else if b1 = 237 then decide (128 ≤ b2 ∧ b2 ≤ 159)
  else if b1 = 240 then decide (144 ≤ b2 ∧ b2 ≤ 191)
  else if b1 = 244 then decide (128 ≤ b2 ∧ b2 ≤ 143)
  else isUtf8Cont b2

/-- Python `bytes.decode("utf-8", errors="ignore")`: well-formed sequences
decode to their code point, the maximal subpart of an ill-formed sequence is
skipped.  Used at lines 116 and 344 of the script.  The fuel argument only
bounds the recursion; every step consumes at least one byte, so a fuel of the
byte count is always enough. -/
def decodeUtf8IgnoreGo : Nat → List Nat → List Nat
  | _, [] => []
  | 0, _ :: _ => []
  | fuel + 1, b :: rest =>
    if b ≤ 127 then b :: decodeUtf8IgnoreGo fuel rest
    else if 194 ≤ b ∧ b ≤ 223 then
      match rest with
      | [] => []
      | b2 :: rest2 =>
        if isUtf8Cont b2 then ((b - 192) * 64 + (b2 - 128)) :: decodeUtf8IgnoreGo fuel rest2
        else decodeUtf8IgnoreGo fuel rest
    else if 224 ≤ b ∧ b ≤ 239 then
      match rest with
      | [] => []
      | b2 :: rest2 =>
        if utf8Cont2Ok b b2 then
          match rest2 with
          | [] => []
          | b3 :: rest3 =>
            if isUtf8Cont b3 then
              ((b - 224) * 4096 + (b2 - 128) * 64 + (b3 - 128)) :: decodeUtf8IgnoreGo fuel rest3
            else decodeUtf8IgnoreGo fuel rest2
        else decodeUtf8IgnoreGo fuel rest
    else if 240 ≤ b ∧ b ≤ 244 then
      match rest with
      | [] => []
      | b2 :: rest2 =>
        if utf8Cont2Ok b b2 then
          match rest2 with
          | [] => []
          | b3 :: rest3 =>
            if isUtf8Cont b3 then
              match rest3 with
              | [] => []
              | b4 :: rest4 =>
                if isUtf8Cont b4 then
                  ((b - 240) * 262144 + (b2 - 128) * 4096 + (b3 - 128) * 64 + (b4 - 128)) ::
                    decodeUtf8IgnoreGo fuel rest4
                else decodeUtf8IgnoreGo fuel rest3
            else decodeUtf8IgnoreGo fuel rest2
        else decodeUtf8IgnoreGo fuel rest
    else decodeUtf8IgnoreGo fuel rest

/-- Decoding of a whole byte buffer as UTF-8 with errors ignored. -/
def decodeUtf8Ignore (bs : List Nat) : List Nat := decodeUtf8IgnoreGo bs.length bs

/-- Python `text.encode("latin-1", errors="ignore")`: code points above 255 are
dropped, the rest become bytes of the same value.  Used at lines 217 and 530 of
the script. -/
def encodeLatin1Ignore (cps : List Nat) : List Nat := cps.filter (fun c => c ≤ 255)

/-- Inner `while j < len(stream)` loop of `extract_all_text_from_stream`
(lines 441 to 456): scan the part of the buffer after an opening `(`.  Returns
the decoded content and the text after the closing `)`, or `none` when the
buffer ends before an unescaped `)` is found (the `while ... else: i += 1`
path, in which the collected content is discarded). -/
def litInner : List Nat → Option (List Nat × List Nat)
  | [] => none
  | c :: rest =>
    if c = 92 then
      match rest with
      | [] => none
      | e :: rest2 =>
        match litInner rest2 with
        | some (cont, r) => some (if escOK e = true then e :: cont else cont, r)
        | none => none
    else if c = 41 then some ([], rest)
    else
      match litInner rest with
      | some (cont, r) => some (c :: cont, r)
      | none => none

/-- Outer `while i < len(stream)` loop of `extract_all_text_from_stream`
(lines 436 to 458), with fuel bounding the number of cursor advances; the fuel
is always at least the buffer length, which suffices because every step
consumes at least one character. -/
def extractLiteralsGo : Nat → List Nat → List (List Nat)
  | _, [] => []
  | 0, _ :: _ => []
  | fuel + 1, c :: rest =>
    if c = 40 then
      match litInner rest with
      | some (cont, rest2) => cont :: extractLiteralsGo fuel rest2
      | none => extractLiteralsGo fuel rest
    else extractLiteralsGo fuel rest

/-- All literal-string contents collected by `extract_all_text_from_stream`
before the hex-string pass. -/
def extractLiterals (s : List Nat) : List (List Nat) :=
  extractLiteralsGo s.length s

/-- `re.findall(r"<([0-9A-Fa-f]+)>", stream)` (line 461): leftmost
non-overlapping matches; at a `<`, the maximal nonempty run of hex digits must
be followed directly by `>`, otherwise the attempt fails and scanning resumes
one character later. -/
def hexFindallGo : Nat → List Nat → List (List Nat)
  | _, [] => []
  | 0, _ :: _ => []
  | fuel + 1, c :: rest =>
    if c = 60 then
      match rest.drop (rest.takeWhile isHexDigitCp).length with
      | 62 :: after =>
        if (rest.takeWhile isHexDigitCp).isEmpty then hexFindallGo fuel rest
        else rest.takeWhile isHexDigitCp :: hexFindallGo fuel after
      | _ => hexFindallGo fuel rest
    else hexFindallGo fuel rest

/-- All hex-string digit groups found in the buffer. -/
def hexFindall (s : List Nat) : List (List Nat) :=
  hexFindallGo s.length s

/-- Value of one hex digit (the inputs are always hex digits). -/
def hexVal (c : Nat) : Nat :=
  if 48 ≤ c ∧ c ≤ 57 then c - 48
  else if 65 ≤ c ∧ c ≤ 70 then c - 55
  else if 97 ≤ c ∧ c ≤ 102 then c - 87
  else 0

/-- `bytes.fromhex` on an even-length run of hex digits. -/
def hexToBytes : List Nat → List Nat
  | a :: b :: rest => (hexVal a * 16 + hexVal b) :: hexToBytes rest
  | _ => []

/-- Decoded texts of the hex strings (lines 462 to 471): groups with an odd
number of digits are skipped by the `if len(hex_str) % 2 == 0` guard, the rest
are decoded as UTF-8 with errors ignored. -/
def hexTexts (s : List Nat) : List (List Nat) :=
  (hexFindall s).filterMap
    (fun h => if h.length % 2 = 0 then some (decodeUtf8Ignore (hexToBytes h)) else none)

/-- `extract_all_text_from_stream(stream)` (lines 430 to 473): literal-string
contents, then decoded even-length hex strings, joined by single spaces and
lowercased. -/
def extractAllTextFromStream (s : List Nat) : List Nat :=
  pyLower (List.intercalate [32] (extractLiterals s ++ hexTexts s))

/-- Python `str.replace(pat, repl)` with a nonempty pattern: leftmost
non-overlapping occurrences, scanned with fuel bounded by the text length. -/
def pyReplaceGo (pat repl : List Nat) : Nat → List Nat → List Nat
  | _, [] => []
  | 0, s => s
  | fuel + 1, c :: rest =>
    if pat.isPrefixOf (c :: rest) then repl ++ pyReplaceGo pat repl fuel (rest.drop (pat.length - 1))
    else c :: pyReplaceGo pat repl fuel rest

/-- Python `text.replace(pat, repl)`. -/
def pyReplace (pat repl : List Nat) (s : List Nat) : List Nat :=
  pyReplaceGo pat repl s.length s

/-- `should_remove_text_object` (lines 479 to 482): the decoded text of a
`BT ... ET` block contains some needle. -/
def shouldRemoveTextObject (needles : List (List Nat)) (block : List Nat) : Bool :=
  anyNeedle needles (extractAllTextFromStream block)

/-- `should_remove_inline` (lines 489 to 494): unescape `\\(`, `\\)` and `\\`
in the captured group, lowercase, and test the needles. -/
def shouldRemoveInline (needles : List (List Nat)) (grp : List Nat) : Bool :=
  anyNeedle needles
    (pyLower (pyReplace [92, 92] [92] (pyReplace [92, 92, 41] [41] (pyReplace [92, 92, 40] [40] grp))))

/-- `should_remove_tj_array` (lines 502 to 505): the decoded text of the array
body contains some needle. -/
def shouldRemoveTJArray (needles : List (List Nat)) (body : List Nat) : Bool :=
  anyNeedle needles (extractAllTextFromStream body)

/-- Generic `re.sub(pattern, lambda m: removal, text)` engine for the patterns
of the script.  `try1 s` attempts a match at the start of `s` and returns the
match length together with the removal verdict; on a match the engine emits
nothing (verdict true) or the matched span verbatim (verdict false) and resumes
after the span, exactly as `re.sub` with a replacement function returning
either the empty string or `m.group(0)`.  On a failed attempt the engine moves
one character forward.  The fuel is at least the text length, which suffices
because every step consumes at least one character. -/
def reSubGo (try1 : List Nat → Option (Nat × Bool)) : Nat → List Nat → List Nat
  | _, [] => []
  | 0, s => s
  | fuel + 1, c :: rest =>
    match try1 (c :: rest) with
    | some (len, remove) =>
      (if remove then [] else (c :: rest).take len) ++ reSubGo try1 fuel (rest.drop (len - 1))
    | none => c :: reSubGo try1 fuel rest

/-- One full substitution pass over a text. -/
def reSub (try1 : List Nat → Option (Nat × Bool)) (s : List Nat) : List Nat :=
  reSubGo try1 s.length s

/-- Split a text at the first occurrence of the character `d`, as the regex
piece `([^d]*)d` forces: the capture cannot cross a `d`, so it always ends at
the first one. -/
def splitAtChar (d : Nat) : List Nat → Option (List Nat × List Nat)
  | [] => none
  | c :: rest =>
    if c = d then some ([], rest)
    else
      match splitAtChar d rest with
      | some (pre, post) => some (c :: pre, post)
      | none => none

/-- Split a text at the first occurrence of the adjacent pair `E`, `T`, the
way the reluctant `(.*?)ET` with `re.DOTALL` matches. -/
def findET : List Nat → Option (List Nat × List Nat)
  | [] => none
  | 69 :: 84 :: rest => some ([], rest)
  | c :: rest =>
    match findET rest with
    | some (pre, post) => some (c :: pre, post)
    | none => none

/-- Match `\s+` followed by the literal operator `op` followed by `\b` at the
start of `s`; returns the number of characters consumed.  `\s+` is greedy and
`op` starts with a non-space character, so the whitespace run is maximal; the
word boundary after `op` depends on whether the last character of `op` is a
word character: after `Tj` and `TJ` the next character must be absent or a
non-word character (`nextWordReq = false`), after the quote operators the next
character must be a word character (`nextWordReq = true`). -/
def afterWsOp (op : List Nat) (nextWordReq : Bool) (s : List Nat) : Option Nat :=
  let ws := s.takeWhile isPySpace
  if ws.isEmpty then none
  else
    let rest := s.drop ws.length
    if op.isPrefixOf rest then
      let ok :=
        match (rest.drop op.length).head? with
        | none => !nextWordReq
        | some c => if nextWordReq then isWordChar c else !isWordChar c
      if ok then some (ws.length + op.length) else none
    else none

/-- Match attempt for `BT(.*?)ET` with `re.DOTALL` (lines 477 and 484). -/
def tryBTET (needles : List (List Nat)) (s : List Nat) : Option (Nat × Bool) :=
  match s with
  | 66 :: 84 :: rest =>
    match findET rest with
    | some (block, _) => some (block.length + 4, shouldRemoveTextObject needles block)
    | none => none
  | _ => none

/-- Match attempt for `\(([^)]*)\)\s+Tj\b` (line 497). -/
def tryInlineTj (needles : List (List Nat)) (s : List Nat) : Option (Nat × Bool) :=
  match s with
  | 40 :: rest =>
    match splitAtChar 41 rest with
    | some (grp, after) =>
      match afterWsOp [84, 106] false after with
      | some k => some (grp.length + 2 + k, shouldRemoveInline needles grp)
      | none => none
    | none => none
  | _ => none

/-- Match attempt for `\[([^\]]*)\]\s+TJ\b` (line 507). -/
def tryTJArray (needles : List (List Nat)) (s : List Nat) : Option (Nat × Bool) :=
  match s with
  | 91 :: rest =>
    match splitAtChar 93 rest with
    | some (body, after) =>
      match afterWsOp [84, 74] false after with
      | some k => some (body.length + 2 + k, shouldRemoveTJArray needles body)
      | none => none
    | none => none
  | _ => none

/-- Match attempt for the single-quote pattern (line 512); the `\b` after the
non-word quote character requires a following word character. -/
def tryQuoteOp (needles : List (List Nat)) (s : List Nat) : Option (Nat × Bool) :=
  match s with
  | 40 :: rest =>
    match splitAtChar 41 rest with
    | some (grp, after) =>
      match afterWsOp [39] true after with
      | some k => some (grp.length + 2 + k, shouldRemoveInline needles grp)
      | none => none
    | none => none
  | _ => none

/-- Match attempt for the double-quote pattern (line 515). -/
def tryDQuoteOp (needles : List (List Nat)) (s : List Nat) : Option (Nat × Bool) :=
  match s with
  | 40 :: rest =>
    match splitAtChar 41 rest with
    | some (grp, after) =>
      match afterWsOp [34] true after with
      | some k => some (grp.length + 2 + k, shouldRemoveInline needles grp)
      | none => none
    | none => none
  | _ => none

/-- The five `re.sub` removal passes applied to a decoded stream text, in the
order of lines 484, 497, 507, 512 and 515 of `remove_watermark_pymupdf` (the
same passes run at lines 183 to 212 of `process_form_xobject`). -/
def rewriteStream (needles : List (List Nat)) (s : List Nat) : List Nat :=
  let s1 := reSub (tryBTET needles) s
  let s2 := reSub (tryInlineTj needles) s1
  let s3 := reSub (tryTJArray needles) s2
  let s4 := reSub (tryQuoteOp needles) s3
  reSub (tryDQuoteOp needles) s4

/-- Write-back pipeline for one content stream (lines 342 to 556): decode the
raw bytes as UTF-8 ignoring errors, run the removal passes, and if the text
changed, re-encode it as Latin-1 ignoring errors; an unchanged text leaves the
raw bytes untouched.  Returns the stored bytes and whether an update happened. -/
def rewrittenStreamBytes (needles : List (List Nat)) (bytes : List Nat) : List Nat × Bool :=
  let t := decodeUtf8Ignore bytes
  let t2 := rewriteStream needles t
  if t2 = t then (bytes, false) else (encodeLatin1Ignore t2, true)

/-- An annotation, as seen through `annot.info` (lines 273 to 278): the
`content` and `title` entries. -/
structure AnnotModel where
  content : List Nat
  title : List Nat
deriving DecidableEq

/-- One page of the document as the page loop of `remove_watermark_pymupdf`
observes it: `text` is the rendered text returned by `page.get_text()` (an
external collaborator), `annots` the annotation list, `searchHits` whether
`page.search_for` finds any watermark instance (external collaborator), and
`stream` the raw bytes of the page content stream. -/
structure PageModel where
  text : List Nat
  annots : List AnnotModel
  searchHits : Bool
  stream : List Nat
deriving DecidableEq

/-- A document: pages plus the raw streams of the form XObjects that the
document-wide scan at lines 375 to 397 visits. -/
structure DocModel where
  pages : List PageModel
  xobjs : List (List Nat)
deriving DecidableEq

/-- Mutable document state threaded through the page loop: processed pages,
the form-XObject streams paired with how many times each has been updated, and
the number of content-stream updates. -/
structure DocSt where
  pagesDone : List PageModel
  xobjs : List (List Nat × Nat)
  streamEdits : Nat
deriving DecidableEq

/-- Annotation match test of lines 274 to 278: some needle occurs in the
lowercased content or in the lowercased title. -/
def annotMatches (needles : List (List Nat)) (a : AnnotModel) : Bool :=
  needles.any (fun w => pyIn w (pyLower a.content) || pyIn w (pyLower a.title))

/-- Processing of one form XObject during one page iteration: the gate at
lines 384 to 390 (nonempty stream whose Latin-1 decoding contains a needle,
lowercased) followed by `process_form_xobject` (lines 104 to 237), which
decodes the stream as UTF-8 ignoring errors, re-checks the needles, runs the
same five removal passes, and updates the stream only when the text changed.
Returns the stored bytes and whether an update happened. -/
def xobjStep (needles : List (List Nat)) (bytes : List Nat) : List Nat × Bool :=
  if bytes.isEmpty then (bytes, false)
  else if anyNeedle needles (pyLower (decodeLatin1 bytes)) then
    let t := decodeUtf8Ignore bytes
    if anyNeedle needles (pyLower t) then
      let t2 := rewriteStream needles t
      if t2 = t then (bytes, false) else (encodeLatin1Ignore t2, true)
    else (bytes, false)
  else (bytes, false)

/-- One pass of the document-wide form-XObject scan, applied during the
processing of a single watermarked page. -/
def xobjScan (needles : List (List Nat)) (st : DocSt) : DocSt :=
  { st with
    xobjs := st.xobjs.map
      (fun bc =>
        let r := xobjStep needles bc.1
        (r.1, bc.2 + (if r.2 then 1 else 0))) }

/-- Record a finished page. -/
def addPage (st : DocSt) (p : PageModel) : DocSt :=
  { st with pagesDone := st.pagesDone ++ [p] }

/-- Main branch of one page iteration once the gates passed: scan the form
XObjects (lines 375 to 397), then rewrite the page content stream and update
it if it changed (lines 342 to 556). -/
def pageMain (needles : List (List Nat)) (st : DocSt) (p1 : PageModel) : DocSt :=
  let st1 := xobjScan needles st
  let r := rewrittenStreamBytes needles p1.stream
  let st2 := if r.2 then { st1 with streamEdits := st1.streamEdits + 1 } else st1
  addPage st2 { p1 with stream := r.1 }

/-- Annotation deletion of lines 269 to 287: drop from the page every
annotation whose content or title matches a needle. -/
def filterAnnots (needles : List (List Nat)) (p : PageModel) : PageModel :=
  { p with annots := p.annots.filter (fun a => !annotMatches needles a) }

/-- One iteration of the page loop of `remove_watermark_pymupdf` (lines 253
to 576): skip when the needle list is empty (line 256) or when no needle
occurs in the lowercased rendered page text (lines 260 to 263); otherwise
delete the matching annotations (lines 269 to 287), then skip the stream work
when the search finds no instances (line 331) or the content stream is empty
(line 337), else run the main branch. -/
def pageStep (needles : List (List Nat)) (st : DocSt) (p : PageModel) : DocSt :=
  if needles.isEmpty then addPage st p
  else if anyNeedle needles (pyLower p.text) then
    if p.searchHits then
      if (filterAnnots needles p).stream.isEmpty then addPage st (filterAnnots needles p)
      else pageMain needles st (filterAnnots needles p)
    else addPage st (filterAnnots needles p)
  else addPage st p

/-- Initial state for a document run. -/
def initSt (doc : DocModel) : DocSt :=
  { pagesDone := [], xobjs := doc.xobjs.map (fun b => (b, 0)), streamEdits := 0 }

/-- The whole page loop of `remove_watermark_pymupdf` over a document. -/
def runDoc (needles : List (List Nat)) (doc : DocModel) : DocSt :=
  doc.pages.foldl (pageStep needles) (initSt doc)

/-- Needles used by the concrete counterexamples. -/
def exNeedles : List (List Nat) := [S "secret"]

/-- A page whose rendered text contains the needle and whose own one-byte
content stream `q` contains no removable invocation. -/
def exPage : PageModel :=
  { text := S "secret", annots := [], searchHits := true, stream := [113] }

/-- A form-XObject stream on which the first edit splices a `BT ... ET` block
that the next page iteration removes: `B(secret) 'T (secret) ET` (written with
the quote operator as code point 39). -/
def exXObj : List Nat := S "B(secret) " ++ 39 :: S "T (secret) ET"

/-- Two watermarked pages sharing the form XObject `exXObj`. -/
def exDoc : DocModel := { pages := [exPage, exPage], xobjs := [exXObj] }

/-- A page whose rendered text contains none of the needles. -/
def exPage2 : PageModel :=
  { text := S "hello", annots := [], searchHits := true, stream := [113] }

/-- The byte buffer of the C1 counterexample: an editable invocation followed
by the two-byte UTF-8 encoding of the code point 233. -/
def exC1Bytes : List Nat := S "(secret) Tj x" ++ [195, 169]

/-! ## General lemmas about the substitution engine -/

/-- Every pass of the substitution engine deletes whole spans and copies every
other character verbatim: its output is a sublist of its input. -/
theorem reSubGo_sublist (try1 : List Nat → Option (Nat × Bool)) :
    ∀ (fuel : Nat) (s : List Nat), List.Sublist (reSubGo try1 fuel s) s := by
  intro fuel
  induction fuel with
  | zero => intro s; cases s <;> simp [reSubGo]
  | succ n ih =>
    intro s
    cases s with
    | nil => simp [reSubGo]
    | cons c rest =>
      simp only [reSubGo]
      cases htry : try1 (c :: rest) with
      | none => exact List.Sublist.cons₂ c (ih rest)
      | some p =>
        obtain ⟨len, remove⟩ := p
        have hrec : List.Sublist (reSubGo try1 n (rest.drop (len - 1))) (rest.drop (len - 1)) :=
          ih _
        have hdrop : List.Sublist (rest.drop (len - 1)) ((c :: rest).drop len) := by
          cases len with
          | zero => simp [List.sublist_cons_self]
          | succ m => simp [List.drop]
        have h1 :
            List.Sublist (if remove then [] else (c :: rest).take len) ((c :: rest).take len) := by
          split
          · exact List.nil_sublist _
          · exact List.Sublist.refl _
        have h2 := List.Sublist.append h1 (hrec.trans hdrop)
        rw [List.take_append_drop] at h2
        exact h2

/-- The wrapper `reSub` also returns a sublist of its input. -/
theorem reSub_sublist (try1 : List Nat → Option (Nat × Bool)) (s : List Nat) :
    List.Sublist (reSub try1 s) s :=
  reSubGo_sublist try1 s.length s

/-! ## General lemmas about the page loop -/

/-- When no needle occurs in the lowercased rendered text of a page, the page
iteration records the page unchanged and touches nothing else. -/
theorem pageStep_gate_false (needles : List (List Nat)) (st : DocSt) (p : PageModel)
    (h : anyNeedle needles (pyLower p.text) = false) :
    pageStep needles st p = addPage st p := by
  simp [pageStep, h]

/-- Folding the page loop over pages that all fail the needle gate only
appends the pages, leaving streams, form XObjects and counters unchanged. -/
theorem foldl_pageStep_skip (needles : List (List Nat)) :
    ∀ (pages : List PageModel) (st : DocSt),
      (∀ p ∈ pages, anyNeedle needles (pyLower p.text) = false) →
      pages.foldl (pageStep needles) st = { st with pagesDone := st.pagesDone ++ pages } := by
  intro pages
  induction pages with
  | nil => intro st _; simp
  | cons p ps ih =>
    intro st h
    have hp : anyNeedle needles (pyLower p.text) = false := h p (by simp)
    have hps : ∀ q ∈ ps, anyNeedle needles (pyLower q.text) = false :=
      fun q hq => h q (by simp [hq])
    simp only [List.foldl_cons]
    rw [pageStep_gate_false needles st p hp, ih (addPage st p) hps]
    simp [addPage]

/-- A form XObject whose Latin-1 decoded, lowercased content contains no
needle fails the gate of the document-wide scan and is left untouched. -/
theorem xobjStep_gate_false (needles : List (List Nat)) (x : List Nat)
    (h : anyNeedle needles (pyLower (decodeLatin1 x)) = false) :
    xobjStep needles x = (x, false) := by
  simp [xobjStep, h]

/-- One page iteration preserves a single needle-free form XObject together
with its update count. -/
theorem pageStep_xobjs_single (needles : List (List Nat)) (st : DocSt) (p : PageModel)
    (x : List Nat) (k : Nat)
    (hx : anyNeedle needles (pyLower (decodeLatin1 x)) = false)
    (hst : st.xobjs = [(x, k)]) :
    (pageStep needles st p).xobjs = [(x, k)] := by
  unfold pageStep
  split
  · simpa [addPage] using hst
  · split
    · split
      · split
        · simpa [addPage] using hst
        · simp [pageMain, addPage, xobjScan, hst, xobjStep_gate_false needles x hx]
          split <;> simp
      · simpa [addPage] using hst
    · simpa [addPage] using hst

/-- The whole page loop preserves a single needle-free form XObject together
with its update count. -/
theorem foldl_xobjs_single (needles : List (List Nat)) (x : List Nat) (k : Nat)
    (hx : anyNeedle needles (pyLower (decodeLatin1 x)) = false) :
    ∀ (pages : List PageModel) (st : DocSt), st.xobjs = [(x, k)] →
      (pages.foldl (pageStep needles) st).xobjs = [(x, k)] := by
  intro pages
  induction pages with
  | nil => intro st h; simpa using h
  | cons p ps ih =>
    intro st h
    simp only [List.foldl_cons]
    exact ih _ (pageStep_xobjs_single needles st p x k hx h)

/-! ## General lemmas about the literal-string and hex-string scanners -/

/-- In the inner literal scan, the first character `41` (a closing paren) that
is not part of an escape closes the string, no matter how many opening parens
occurred before it: the collected content is everything before it, verbatim. -/
theorem litInner_closes_at_first_rparen :
    ∀ (pre rest : List Nat), (∀ c ∈ pre, c ≠ 41 ∧ c ≠ 92) →
      litInner (pre ++ 41 :: rest) = some (pre, rest) := by
  intro pre
  induction pre with
  | nil =>
    intro rest _
    unfold litInner
    simp
  | cons c pre ih =>
    intro rest h
    have hc := h c (by simp)
    have hpre : ∀ d ∈ pre, d ≠ 41 ∧ d ≠ 92 := fun d hd => h d (by simp [hd])
    simp only [List.cons_append]
    unfold litInner
    rw [if_neg hc.2, if_neg hc.1, ih rest hpre]

/-- Bounded-length version: a buffer with no `41` has no closing paren, so the
inner literal scan fails and its collected content is discarded. -/
theorem litInner_none_aux :
    ∀ (n : Nat) (s : List Nat), s.length ≤ n → (∀ c ∈ s, c ≠ 41) → litInner s = none := by
  intro n
  induction n with
  | zero =>
    intro s hl _
    cases s with
    | nil => rfl
    | cons c rest => simp at hl
  | succ m ih =>
    intro s hl h
    cases s with
    | nil => rfl
    | cons c rest =>
      have hc : c ≠ 41 := h c (by simp)
      by_cases h92 : c = 92
      · subst h92
        cases rest with
        | nil => rfl
        | cons e rest2 =>
          have h2 : litInner rest2 = none := by
            apply ih rest2 _ (fun d hd => h d (by simp [hd]))
            simp at hl
            omega
          unfold litInner
          simp [h2]
      · have h2 : litInner rest = none := by
          apply ih rest _ (fun d hd => h d (by simp [hd]))
          simp at hl
          omega
        unfold litInner
        rw [if_neg h92, if_neg hc, h2]

/-- A buffer containing no `41` yields no literal string. -/
theorem litInner_none (s : List Nat) (h : ∀ c ∈ s, c ≠ 41) : litInner s = none :=
  litInner_none_aux s.length s (le_refl _) h

/-- The outer literal scan of a buffer with no closing paren collects nothing;
in particular an unterminated literal string contributes no text and raises no
error. -/
theorem extractLiteralsGo_no_rparen :
    ∀ (fuel : Nat) (s : List Nat), (∀ c ∈ s, c ≠ 41) → extractLiteralsGo fuel s = [] := by
  intro fuel
  induction fuel with
  | zero => intro s _; cases s <;> rfl
  | succ m ih =>
    intro s h
    cases s with
    | nil => rfl
    | cons c rest =>
      have hrest : ∀ d ∈ rest, d ≠ 41 := fun d hd => h d (by simp [hd])
      by_cases h40 : c = 40
      · subst h40
        unfold extractLiteralsGo
        simp [litInner_none rest hrest, ih rest hrest]
      · unfold extractLiteralsGo
        simp [h40, ih rest hrest]

/-- The outer literal scan of a buffer with no opening paren collects nothing. -/
theorem extractLiteralsGo_no_lparen :
    ∀ (fuel : Nat) (s : List Nat), (∀ c ∈ s, c ≠ 40) → extractLiteralsGo fuel s = [] := by
  intro fuel
  induction fuel with
  | zero => intro s _; cases s <;> rfl
  | succ m ih =>
    intro s h
    cases s with
    | nil => rfl
    | cons c rest =>
      have hc : c ≠ 40 := h c (by simp)
      unfold extractLiteralsGo
      simp [hc, ih rest (fun d hd => h d (by simp [hd]))]

/-- `takeWhile` over a run that satisfies the predicate followed by a stopper
returns exactly the run. -/
theorem takeWhile_append_stop {p : Nat → Bool} :
    ∀ (l : List Nat) (d : Nat) (r : List Nat), (∀ c ∈ l, p c = true) → p d = false →
      (l ++ d :: r).takeWhile p = l := by
  intro l
  induction l with
  | nil => intro d r _ hd; simp [List.takeWhile_cons, hd]
  | cons a l ih =>
    intro d r h hd
    have ha : p a = true := h a (by simp)
    simp [List.takeWhile_cons, ha, ih d r (fun c hc => h c (by simp [hc])) hd]

/-- The hex-string pattern on a lone `<digits>` buffer captures exactly the
digit run. -/
theorem hexFindallGo_single (fuel : Nat) (h : List Nat) (hne : h ≠ [])
    (hhex : ∀ c ∈ h, isHexDigitCp c = true) :
    hexFindallGo (fuel + 1) (60 :: (h ++ [62])) = [h] := by
  obtain ⟨a, t, rfl⟩ := List.exists_cons_of_ne_nil hne
  have hrun : ((a :: t) ++ [62]).takeWhile isHexDigitCp = a :: t :=
    takeWhile_append_stop (a :: t) 62 [] hhex (by decide)
  have hdrop : ((a :: t) ++ [62]).drop (a :: t).length = [62] := List.drop_left (a :: t) [62]
  have hnil : hexFindallGo fuel [] = [] := by cases fuel <;> rfl
  unfold hexFindallGo
  rw [if_pos rfl, hrun, hdrop]
  simp [hnil]

/-! ## Claims -/

/-- Claim C1, amended.  At the level of the decoded text every removal pass is
a pure deletion: the rewritten text is a sublist of the original, so every
kept character retains its value and relative position and the length drops by
exactly the number of deleted characters.  The byte buffer itself, however, is
written back through a UTF-8-decode (errors ignored) and Latin-1-encode
(errors ignored) round-trip, so bytes that are not valid UTF-8 are not
preserved; that failure of the original claim is the content of the
counterexample. -/
theorem C1_theorem (needles : List (List Nat)) (t : List Nat) :
    List.Sublist (rewriteStream needles t) t :=
  (reSub_sublist _ _).trans
    ((reSub_sublist _ _).trans
      ((reSub_sublist _ _).trans
        ((reSub_sublist _ _).trans (reSub_sublist _ _))))

/-- Claim C1, counterexample.  On the buffer `(secret) Tj x` followed by the
two UTF-8 bytes `195, 169`, rewriting with needle `secret` produces the bytes
`32, 120, 233`: the two trailing bytes outside the deleted range collapse to
the single Latin-1 byte `233`, so the output differs from the pure byte-range
deletion `32, 120, 195, 169`, is not even a sublist of the original bytes, and
its length is not the original length minus the 11 deleted bytes. -/
theorem C1_counterexample :
    (rewrittenStreamBytes exNeedles exC1Bytes).1 = [32, 120, 233] ∧
      (rewrittenStreamBytes exNeedles exC1Bytes).1 ≠ [32, 120, 195, 169] ∧
      ¬ List.Sublist (rewrittenStreamBytes exNeedles exC1Bytes).1 exC1Bytes ∧
      ((rewrittenStreamBytes exNeedles exC1Bytes).1).length ≠ exC1Bytes.length - 11 :=
  ⟨by decide, by decide, by decide, by decide⟩

/-- Claim C2, amended.  The same full needle set (trivially the union over all
pages) is judged against every form XObject on every watermarked page, and a
form XObject whose Latin-1-decoded, lowercased content contains no needle is
never edited by any page of the run: its stream and its update count are
unchanged after the whole document pass.  There is no visited-set
deduplication, so a needle-bearing shared object can be edited more than once
(see the counterexample). -/
theorem C2_theorem (needles : List (List Nat)) (pages : List PageModel) (x : List Nat)
    (hx : anyNeedle needles (pyLower (decodeLatin1 x)) = false) :
    (runDoc needles { pages := pages, xobjs := [x] }).xobjs = [(x, 0)] := by
  unfold runDoc
  exact foldl_xobjs_single needles x 0 hx pages _ (by simp [initSt])

/-- Claim C2, witness for the amended theorem at a concrete document. -/
theorem C2_witness :
    anyNeedle exNeedles (pyLower (decodeLatin1 [113])) = false ∧
      (runDoc exNeedles { pages := [exPage], xobjs := [[113]] }).xobjs = [([113], 0)] :=
  ⟨by decide, C2_theorem exNeedles [exPage] [113] (by decide)⟩

/-- Claim C2, counterexample.  In a two-page document whose shared form
XObject is `exXObj`, the first page edit rewrites the object to
`BT (secret) ET` and the second page edits it again (to the empty stream), so
the object is edited twice, not at most once. -/
theorem C2_counterexample :
    (runDoc exNeedles exDoc).xobjs = [([], 2)] ∧ ¬ (2 ≤ 1) :=
  ⟨by decide, by decide⟩

/-- Claim C3, amended.  The literal-string scanner tracks no nesting depth: an
unescaped `(` inside the string is ordinary content and does not increment any
counter, and the first character `41` (closing paren) that is not part of an
escape closes the string no matter how many unescaped opening parens preceded
it.  In particular `(A (B) C) Tj` is split at the inner closing paren. -/
theorem C3_theorem (pre rest : List Nat) (h : ∀ c ∈ pre, c ≠ 41 ∧ c ≠ 92) :
    litInner (pre ++ 41 :: rest) = some (pre, rest) :=
  litInner_closes_at_first_rparen pre rest h

/-- Claim C3, witness for the amended theorem: the content `A (B` contains an
unescaped opening paren, yet the next closing paren still closes the string. -/
theorem C3_witness :
    (∀ c ∈ S "A (B", c ≠ 41 ∧ c ≠ 92) ∧
      litInner (S "A (B" ++ 41 :: S " Tj") = some (S "A (B", S " Tj") :=
  ⟨by decide, C3_theorem (S "A (B") (S " Tj") (by decide)⟩

/-- Claim C3, counterexample.  The buffer `(A (B) C) Tj` is not parsed as the
single literal string `A (B) C`: the scanner closes the string at the inner
closing paren and extracts `A (B`. -/
theorem C3_counterexample :
    extractLiterals (S "(A (B) C) Tj") = [S "A (B"] ∧
      extractLiterals (S "(A (B) C) Tj") ≠ [S "A (B) C"] :=
  ⟨by decide, by decide⟩

/-- Claim C4, amended.  Rewriting is a no-op on any stream it already leaves
fixed, so a second run is byte-identical exactly on such streams; in general,
however, deleting a span concatenates the surrounding bytes and can create a
new matching span that only the second run removes, so the second run need not
be empty (see the counterexample, where a quote-operator deletion splices a
`BT ... ET` block). -/
theorem C4_theorem (needles : List (List Nat)) (s : List Nat)
    (h : rewriteStream needles s = s) :
    rewriteStream needles (rewriteStream needles s) = rewriteStream needles s := by
  rw [h]
  exact h

/-- Claim C4, witness for the amended theorem at a stream the rewriter leaves
unchanged. -/
theorem C4_witness :
    rewriteStream exNeedles [113] = [113] ∧
      rewriteStream exNeedles (rewriteStream exNeedles [113]) = rewriteStream exNeedles [113] :=
  ⟨by decide, C4_theorem exNeedles [113] (by decide)⟩

/-- Claim C4, counterexample.  On `exXObj` the first run deletes the
quote-operator invocation, splicing the leading `B` against the following `T`
into a new `BT ... ET` block; the second run with the same needles deletes
that block, so the runs are not idempotent. -/
theorem C4_counterexample :
    rewriteStream exNeedles exXObj = S "BT (secret) ET" ∧
      rewriteStream exNeedles (rewriteStream exNeedles exXObj) = [] ∧
      rewriteStream exNeedles (rewriteStream exNeedles exXObj) ≠ rewriteStream exNeedles exXObj :=
  ⟨by decide, by decide, by decide⟩

/-- Claim C5, amended.  Matching a TJ array concatenates the decoded texts of
its string elements with a single space separator and ignores the numeric
spacing adjustments, so `[(CONFI) -50 (DENTIAL)] TJ` extracts the text
`confi dential`: it matches the needle `confi dential` (and the invocation is
then deleted) but does not match the needle `confidential`. -/
theorem C5_theorem :
    extractAllTextFromStream (S "(CONFI) -50 (DENTIAL)") = S "confi dential" ∧
      shouldRemoveTJArray [S "confi dential"] (S "(CONFI) -50 (DENTIAL)") = true ∧
      rewriteStream [S "confi dential"] (S "[(CONFI) -50 (DENTIAL)] TJ") = [] ∧
      shouldRemoveTJArray [S "confidential"] (S "(CONFI) -50 (DENTIAL)") = false :=
  ⟨by decide, by decide, by decide, by decide⟩

/-- Claim C5, counterexample.  The invocation `[(CONFI) -50 (DENTIAL)] TJ`
does not match the needle `confidential`: the array verdict is false and the
rewrite pass leaves the invocation byte-for-byte in place. -/
theorem C5_counterexample :
    shouldRemoveTJArray [S "confidential"] (S "(CONFI) -50 (DENTIAL)") = false ∧
      rewriteStream [S "confidential"] (S "[(CONFI) -50 (DENTIAL)] TJ") =
        S "[(CONFI) -50 (DENTIAL)] TJ" :=
  ⟨by decide, by decide⟩

/-- Claim C6, amended.  For every escaped character, decoding a literal string
containing the two-character escape yields: the escape character itself when
it belongs to `()nrtbf` (so backslash-n decodes to the letter `n`, not to a
control byte), and nothing at all otherwise (both the backslash and the
escaped character are dropped; in particular a doubled backslash decodes to
the empty content, not to one backslash). -/
theorem C6_theorem (e : Nat) :
    extractLiterals [40, 92, e, 41] = if escOK e = true then [[e]] else [[]] := by
  have h0 : litInner ([41] : List Nat) = some ([], []) := rfl
  have h1 : litInner [92, e, 41] = some ((if escOK e = true then [e] else []), []) := by
    unfold litInner
    simp [h0]
  have h2 : ∀ fuel, extractLiteralsGo (fuel + 1) [40, 92, e, 41] =
      [if escOK e = true then [e] else []] := by
    intro fuel
    have h3 : extractLiteralsGo fuel [] = [] := by cases fuel <;> rfl
    unfold extractLiteralsGo
    simp [h1, h3]
  have h4 : extractLiterals [40, 92, e, 41] = extractLiteralsGo (3 + 1) [40, 92, e, 41] := rfl
  rw [h4, h2 3]
  by_cases hesc : escOK e = true <;> simp [hesc]

/-- Claim C6, counterexample.  The literal `(a\nb)` decodes to the three
letters `a`, `n`, `b` and not to `a`, newline, `b`; the literal with a doubled
backslash between `a` and `b` decodes to just `a`, `b` and not to `a`,
backslash, `b`; and an unlisted escape such as backslash-x also decodes to
just `a`, `b` instead of keeping the escaped byte. -/
theorem C6_counterexample :
    extractLiterals (S "(a\\nb)") = [[97, 110, 98]] ∧
      extractLiterals (S "(a\\nb)") ≠ [[97, 10, 98]] ∧
      extractLiterals (S "(a\\\\b)") = [[97, 98]] ∧
      extractLiterals (S "(a\\\\b)") ≠ [[97, 92, 98]] ∧
      extractLiterals (S "(a\\xb)") = [[97, 98]] ∧
      extractLiterals (S "(a\\xb)") ≠ [[97, 120, 98]] :=
  ⟨by decide, by decide, by decide, by decide, by decide, by decide⟩

/-- Claim C7, amended.  An unterminated literal string is not an error and
does not abort the edit of the stream: the scanner discards the collected
content, steps one character past the opening paren, and continues, so a
buffer with no closing paren contributes no literal text at all, while other
matching patterns in the same stream are still deleted (see the
counterexample, where a stream ending in an unterminated literal is edited
rather than left unmodified). -/
theorem C7_theorem (s : List Nat) (h : ∀ c ∈ s, c ≠ 41) : extractLiterals s = [] :=
  extractLiteralsGo_no_rparen s.length s h

/-- Claim C7, witness for the amended theorem on a buffer whose literal string
is left unterminated at the end. -/
theorem C7_witness :
    (∀ c ∈ S "(secret Tj", c ≠ 41) ∧ extractLiterals (S "(secret Tj") = [] :=
  ⟨by decide, C7_theorem (S "(secret Tj") (by decide)⟩

/-- Claim C7, counterexample.  The stream `(secret) Tj x (secret` contains a
literal string left unterminated at the end of the buffer, yet editing is not
aborted: the matching invocation before it is deleted and the stream is
modified rather than left byte-for-byte unchanged. -/
theorem C7_counterexample :
    rewriteStream exNeedles (S "(secret) Tj x (secret") = S " x (secret" ∧
      rewriteStream exNeedles (S "(secret) Tj x (secret") ≠ S "(secret) Tj x (secret" :=
  ⟨by decide, by decide⟩

/-- Claim C8, amended.  A hex string whose content has an odd number of hex
digits is not padded with a zero nibble: the `len % 2 == 0` guard skips it
entirely, so it contributes no text and does not participate in matching. -/
theorem C8_theorem (h : List Nat) (hhex : ∀ c ∈ h, isHexDigitCp c = true)
    (hodd : h.length % 2 = 1) :
    extractAllTextFromStream (60 :: (h ++ [62])) = [] := by
  have hne : h ≠ [] := by
    intro he
    rw [he] at hodd
    simp at hodd
  have hfind : hexFindall (60 :: (h ++ [62])) = [h] := by
    have hlen : (60 :: (h ++ [62])).length = (h.length + 1) + 1 := by simp
    rw [hexFindall, hlen]
    exact hexFindallGo_single (h.length + 1) h hne hhex
  have hlits : extractLiterals (60 :: (h ++ [62])) = [] := by
    unfold extractLiterals
    apply extractLiteralsGo_no_lparen
    intro c hc
    rcases List.mem_cons.mp hc with h60 | hc2
    · subst h60; decide
    · rcases List.mem_append.mp hc2 with hch | hc62
      · intro h40
        subst h40
        exact absurd (hhex 40 hch) (by decide)
      · simp at hc62
        subst hc62
        decide
  have hhex0 : hexTexts (60 :: (h ++ [62])) = [] := by
    unfold hexTexts
    rw [hfind]
    simp [hodd]
  unfold extractAllTextFromStream
  rw [hlits, hhex0]
  rfl

/-- Claim C8, witness for the amended theorem on the odd-length hex string
with digits `414`. -/
theorem C8_witness :
    (∀ c ∈ [52, 49, 52], isHexDigitCp c = true) ∧ ([52, 49, 52] : List Nat).length % 2 = 1 ∧
      extractAllTextFromStream (60 :: ([52, 49, 52] ++ [62])) = [] :=
  ⟨by decide, by decide, C8_theorem [52, 49, 52] (by decide) (by decide)⟩

/-- Claim C8, counterexample.  The buffer `<414>` holds a hex string with an
odd number of digits; it decodes to no text at all, not to the padded decoding
`a@` that `<4140>` produces. -/
theorem C8_counterexample :
    extractAllTextFromStream (S "<414>") = [] ∧
      extractAllTextFromStream (S "<414>") ≠ S "a@" ∧
      extractAllTextFromStream (S "<4140>") = S "a@" :=
  ⟨by decide, by decide, by decide⟩

/-- Claim C9, confirmed.  For every needle set that matches the rendered text
of no page (which holds in particular for the empty needle set, since an empty
set has no matching needle), the page loop records every page unchanged, no
content stream or form XObject is modified, every form-XObject update count is
zero, and the content-stream update count is zero. -/
theorem C9_theorem (needles : List (List Nat)) (doc : DocModel)
    (h : ∀ p ∈ doc.pages, anyNeedle needles (pyLower p.text) = false) :
    (runDoc needles doc).pagesDone = doc.pages ∧
      (runDoc needles doc).xobjs = doc.xobjs.map (fun b => (b, 0)) ∧
      (runDoc needles doc).streamEdits = 0 := by
  have hfold := foldl_pageStep_skip needles doc.pages (initSt doc) h
  unfold runDoc
  rw [hfold]
  exact ⟨by simp [initSt], by simp [initSt], by simp [initSt]⟩

/-- Claim C9, witness at the empty needle set on a concrete document. -/
theorem C9_witness :
    (∀ p ∈ exDoc.pages, anyNeedle [] (pyLower p.text) = false) ∧
      (runDoc [] exDoc).pagesDone = exDoc.pages ∧
      (runDoc [] exDoc).xobjs = exDoc.xobjs.map (fun b => (b, 0)) ∧
      (runDoc [] exDoc).streamEdits = 0 :=
  ⟨by decide, C9_theorem [] exDoc (by decide)⟩

/-- Claim C10, confirmed.  A page whose lowercased rendered text contains no
needle is skipped entirely: the page is recorded with its annotations and its
content stream untouched, and neither the form XObjects nor any update counter
changes while processing it. -/
theorem C10_theorem (needles : List (List Nat)) (st : DocSt) (p : PageModel)
    (h : anyNeedle needles (pyLower p.text) = false) :
    pageStep needles st p = addPage st p ∧
      (pageStep needles st p).pagesDone = st.pagesDone ++ [p] ∧
      (pageStep needles st p).xobjs = st.xobjs ∧
      (pageStep needles st p).streamEdits = st.streamEdits := by
  have h1 := pageStep_gate_false needles st p h
  exact ⟨h1, by rw [h1]; rfl, by rw [h1]; rfl, by rw [h1]; rfl⟩

/-- Claim C10, witness on a concrete page whose text contains no needle. -/
theorem C10_witness :
    anyNeedle exNeedles (pyLower exPage2.text) = false ∧
      pageStep exNeedles (initSt exDoc) exPage2 = addPage (initSt exDoc) exPage2 :=
  ⟨by decide, (C10_theorem exNeedles (initSt exDoc) exPage2 (by decide)).1⟩
